import Mathlib

/-!
# Verification of the dayflow-sync core

Shallow embedding of `src/dayflow-sync.js`: the 4 AM day-boundary resolver,
the record aggregator (durations, app usage, distractions, categories), the
`created_at` extraction used for timestamp preservation, and the per-day
incremental-sync decision logic of `syncDayflowData`.

Modelling conventions:
* Instants are local wall-clock time in whole seconds (`Int`); the calendar
  date of an instant `t` is its day index `t / 86400` (integer division on
  `Int` is Euclidean division, which is floor division for the positive
  divisors used here).  `setHours(4,0,0,0)`, `addDays` and `subDays` of
  date-fns act on the local wall clock, so they are exact 86400-second
  arithmetic in this model (no DST is modelled).
* A calendar-date string `yyyy-MM-dd` is represented by its day index; the
  formatting is a bijection, so string equality is day-index equality.
* JS numbers are modelled exactly over `Int` / `ℚ`.
* A JS object is an insertion-ordered association list with string keys.
* Effects are explicit: a file read is an `Option String` (`none` = the read
  threw), `console.warn` is a returned `Bool` flag.
-/

/-- A JS value as produced by `JSON.parse` (plus `undefined` for the result of a
failed property access).  `obj` is insertion-ordered with string keys. -/
inductive JsVal where
  | undefined
  | null
  | bool (b : Bool)
  | num (n : Int)
  | str (s : String)
  | arr (elems : List JsVal)
  | obj (fields : List (String × JsVal))

/-- JS property access `v[field]` on a parsed value: a lookup on objects,
`undefined` on everything else. -/
def JsVal.get (v : JsVal) (field : String) : JsVal :=
  match v with
  | .obj fields =>
      (match fields.find? (fun f => f.1 == field) with
        | some f => f.2
        | none => .undefined)
  | _ => .undefined

/-- JS truthiness of a parsed value. -/
def JsVal.truthy : JsVal → Bool
  | .undefined => false
  | .null => false
  | .bool b => b
  | .num n => n != 0
  | .str s => s != ""
  | .arr _ => true
  | .obj _ => true

mutual

/-- JS `ToString` coercion (used when a value becomes an object key).
Arrays stringify as their elements joined by `","` with `null`/`undefined`
elements becoming empty, objects as `"[object Object]"`. -/
def JsVal.toJsString : JsVal → String
  | .undefined => "undefined"
  | .null => "null"
  | .bool true => "true"
  | .bool false => "false"
  | .num n => toString n
  | .str s => s
  | .arr elems => String.intercalate "," (jsStringList elems)
  | .obj _ => "[object Object]"

/-- Element stringification for `Array.prototype.join`. -/
def jsStringList : List JsVal → List String
  | [] => []
  | .null :: rest => "" :: jsStringList rest
  | .undefined :: rest => "" :: jsStringList rest
  | v :: rest => v.toJsString :: jsStringList rest

end

/-- The `metadata` column of a timeline card, represented by the outcome of
feeding it to `JSON.parse`: `absent` for a falsy value (`NULL` or `""`),
`malformed` for a string on which `JSON.parse` throws, `value v` for a
successful parse producing `v`. -/
inductive MetaRaw where
  | absent
  | malformed
  | value (v : JsVal)

/-- The structure returned by `parseMetadata` (source lines 139–154). -/
structure ParsedMeta where
  distractions : List JsVal
  appSites : JsVal

/-- `parseMetadata` (source lines 139–154).  The second component records
whether the `console.warn` in the `catch` branch fired.  `JSON.parse`
returning `null` (or the unreachable `undefined`) makes the subsequent
`parsed.distractions` access throw a `TypeError`, which the same
`try`/`catch` recovers, so those cases also warn and return the empty
contribution. -/
def parseMetadata : MetaRaw → ParsedMeta × Bool
  | .absent => (⟨[], .obj []⟩, false)
  | .malformed => (⟨[], .obj []⟩, true)
  | .value .null => (⟨[], .obj []⟩, true)
  | .value .undefined => (⟨[], .obj []⟩, true)
  | .value v =>
      (⟨(match v.get "distractions" with | .arr l => l | _ => []),
        (if (v.get "appSites").truthy then v.get "appSites" else .obj [])⟩,
       false)

/-- One `timeline_cards` row, with the columns the verified operations
consult (`id`, `batch_id`, `day`, summaries, `video_summary_url`,
`created_at` are never read by them and are omitted).  `startDisplay` /
`endDisplay` are the human-readable `start` / `end` columns. -/
structure Card where
  startDisplay : String
  endDisplay : String
  start_ts : Int
  end_ts : Int
  title : Option String
  category : Option String
  subcategory : Option String
  metadata : MetaRaw

/-- One `journal_entries` row; only presence and `status` are consulted by
the verified operations (the free-text fields feed the renderer only). -/
structure Journal where
  status : Option String

/-- `Math.round`: round half toward positive infinity. -/
def jsRound (q : ℚ) : Int := ⌊q + 1 / 2⌋

/-- `calculateDuration` (source lines 221–223): seconds to minutes. -/
def calculateDuration (startTs endTs : Int) : Int :=
  jsRound (((endTs : ℚ) - (startTs : ℚ)) / 60)

/-- `calculateTotalMinutes` (source lines 240–244). -/
def calculateTotalMinutes (cards : List Card) : Int :=
  cards.foldl (fun total card => total + calculateDuration card.start_ts card.end_ts) 0

/-- 4:00 local time on the calendar date of instant `t`
(`setHours(4, 0, 0, 0)`). -/
def fourAMOf (t : Int) : Int := t / 86400 * 86400 + 4 * 3600

/-- Result of `getDayInfoFor4AMBoundary`.  `dayString` is the day index of
the formatted `yyyy-MM-dd` identifier. -/
structure DayInfo where
  dayString : Int
  startOfDay : Int
  endOfDay : Int
deriving DecidableEq

/-- `getDayInfoFor4AMBoundary` (source lines 182–202). -/
def getDayInfoFor4AMBoundary (t : Int) : DayInfo :=
  if t < fourAMOf t then
    ⟨(fourAMOf t - 86400) / 86400, fourAMOf t - 86400, fourAMOf t⟩
  else
    ⟨fourAMOf t / 86400, fourAMOf t, fourAMOf t + 86400⟩

/-- `isDayComplete` (source lines 161–165): the current instant has reached
4 AM of the calendar day after `day`. -/
def isDayComplete (day : Int) (now : Int) : Bool :=
  decide (day * 86400 + 4 * 3600 + 86400 ≤ now)

/-- First-seen-order deduplication (a JS `Set` / `includes`-guarded push
preserves insertion order). -/
def firstSeen {α : Type _} [DecidableEq α] (l : List α) : List α :=
  l.foldl (fun acc x => if x ∈ acc then acc else acc ++ [x]) []

/-- `calculateDateRange` (source lines 204–218): the `includes`-guarded
push loop followed by `[...new Set(dates)]`. -/
def calculateDateRange (days : Nat) (now : Int) : List Int :=
  firstSeen ((List.range days).foldl (fun acc (i : Nat) =>
    (fun d => if d ∈ acc then acc else acc ++ [d])
      (getDayInfoFor4AMBoundary (now - (i : Int) * 86400)).dayString) [])

/-- Running per-application statistics (`appStats[app]`). -/
structure AppStats where
  sessions : Nat
  totalMinutes : Int
deriving DecidableEq

/-- The `[metadata.appSites?.primary, metadata.appSites?.secondary]
.filter(Boolean)` step of `aggregateAppUsage`, with the truthy survivors
coerced to object keys. -/
def metaSlots (m : ParsedMeta) : List String :=
  (([m.appSites.get "primary", m.appSites.get "secondary"].filter JsVal.truthy).map
    JsVal.toJsString)

/-- The qualifying application identifiers of one card. -/
def slotsOf (c : Card) : List String := metaSlots (parseMetadata c.metadata).1

/-- `appStats[app].sessions += 1; appStats[app].totalMinutes += duration`,
creating the entry (at the insertion-order end) when absent. -/
def bump (app : String) (dur : Int) :
    List (String × AppStats) → List (String × AppStats)
  | [] => [(app, ⟨1, dur⟩)]
  | (k, s) :: rest =>
      if k = app then (k, ⟨s.sessions + 1, s.totalMinutes + dur⟩) :: rest
      else (k, s) :: bump app dur rest

/-- The `appStats` object built by the `forEach` loops of
`aggregateAppUsage` (source lines 246–262).  `Object.entries` later reads
it back in insertion order; application identifiers are modelled as
non-array-index string keys, for which that order applies. -/
def appStatsOf (cards : List Card) : List (String × AppStats) :=
  cards.foldl (fun m c =>
    (slotsOf c).foldl
      (fun m2 app => bump app (calculateDuration c.start_ts c.end_ts) m2) m) []

/-- One element of `aggregateAppUsage`'s result. -/
structure AppUsage where
  app : String
  sessions : Nat
  totalMinutes : Int
deriving DecidableEq

/-- One insertion step of the stable descending sort. -/
def insertDesc (x : String × AppStats) :
    List (String × AppStats) → List (String × AppStats)
  | [] => [x]
  | y :: ys =>
      if y.2.totalMinutes ≤ x.2.totalMinutes then x :: y :: ys
      else y :: insertDesc x ys

/-- Stable sort by descending `totalMinutes`, modelling
`.sort((a, b) => b[1].totalMinutes - a[1].totalMinutes)`
(`Array.prototype.sort` is stable per the ES spec). -/
def sortDesc : List (String × AppStats) → List (String × AppStats)
  | [] => []
  | x :: xs => insertDesc x (sortDesc xs)

/-- `aggregateAppUsage` (source lines 246–267). -/
def aggregateAppUsage (cards : List Card) : List AppUsage :=
  (sortDesc (appStatsOf cards)).map (fun e => ⟨e.1, e.2.sessions, e.2.totalMinutes⟩)

/-- `extractAllDistractions` (source lines 269–286): each distraction
annotated with its parent card's display start/end (the object spread is
modelled as pairing). -/
def extractAllDistractions (cards : List Card) : List (JsVal × String × String) :=
  cards.flatMap (fun c =>
    ((parseMetadata c.metadata).1.distractions).map
      (fun d => (d, c.startDisplay, c.endDisplay)))

/-- `extractCategories` (source lines 230–238): truthy categories in
first-seen order. -/
def extractCategories (cards : List Card) : List String :=
  firstSeen (cards.filterMap (fun c =>
    match c.category with
    | some s => if s = "" then none else some s
    | none => none))

/-- The YAML frontmatter object built by `generateFrontmatter`
(source lines 289–307). -/
structure Frontmatter where
  dayflow_day : Int
  day_boundary : String
  total_cards : Nat
  total_minutes : Int
  categories : List String
  has_journal : Bool
  journal_status : Option String
  created_at : String
  updated_at : String
  tags : List String

/-- `generateFrontmatter` (source lines 289–307); `nowIso` stands for
`new Date().toISOString()`.  `existingCreatedAt || now` and
`journal?.status || null` are JS `||`, so the empty string falls through. -/
def generateFrontmatter (day : Int) (cards : List Card) (journal : Option Journal)
    (existingCreatedAt : Option String) (nowIso : String) : Frontmatter :=
  { dayflow_day := day
    day_boundary := "4am"
    total_cards := cards.length
    total_minutes := calculateTotalMinutes cards
    categories := extractCategories cards
    has_journal := journal.isSome
    journal_status :=
      (match journal with
        | some j =>
            (match j.status with
              | some s => if s = "" then none else some s
              | none => none)
        | none => none)
    created_at :=
      (match existingCreatedAt with
        | some s => if s = "" then nowIso else s
        | none => nowIso)
    updated_at := nowIso
    tags := "dayflow" :: "timeline" :: (extractCategories cards).map String.toLower }

/-- The JS `\s` character class (ASCII part), also used by `trim()`. -/
def isJsSpace (c : Char) : Bool :=
  c == ' ' || c == '\t' || c == '\n' || c == '\r' || c == Char.ofNat 11 || c == Char.ofNat 12

/-- Characters excluded from the capture group: single quote, double
quote, newline. -/
def capExcluded (c : Char) : Bool := c == Char.ofNat 39 || c == Char.ofNat 34 || c == '\n'

/-- The greedy one-or-more capture of non-quote non-newline characters. -/
def capRun (l : List Char) : Option (List Char) :=
  (fun r => if r.isEmpty then none else some r)
    (l.takeWhile (fun c => !capExcluded c))

/-- Match the optional-quote-then-capture part of the pattern at a fixed
position.  A leading quote must be consumed: the capture class excludes
quotes, so the empty-quote alternative can never succeed there. -/
def postWs (l : List Char) : Option (List Char) :=
  match l with
  | [] => none
  | c :: rest =>
      if c == Char.ofNat 39 || c == Char.ofNat 34 then capRun rest
      else capRun (c :: rest)

/-- Backtracking match of the regex tail after the literal:
greedy whitespace first, retreating one character at a time. -/
def afterWs : List Char → Option (List Char)
  | [] => none
  | c :: rest =>
      if isJsSpace c then
        match afterWs rest with
        | some cap => some cap
        | none => postWs (c :: rest)
      else postWs (c :: rest)

/-- Leftmost match of the regex
`created_at:` followed by whitespace, an optional quote, and a captured
run of non-quote non-newline characters, as in
`content.match(...)` of `getExistingCreatedAt` (source line 492);
returns the first capture group. -/
def findCreatedAt : List Char → Option (List Char)
  | [] => none
  | c :: rest =>
      if (c :: rest).take 11 = "created_at:".toList then
        match afterWs ((c :: rest).drop 11) with
        | some cap => some cap
        | none => findCreatedAt rest
      else findCreatedAt rest

/-- `String.prototype.trim`. -/
def jsTrim (l : List Char) : List Char :=
  ((l.dropWhile isJsSpace).reverse.dropWhile isJsSpace).reverse

/-- `getExistingCreatedAt` (source lines 488–498) as a function of the
file-read outcome: `none` stands for `fs.readFile` throwing (missing or
unreadable file), `some content` for a successful read. -/
def getExistingCreatedAt (readResult : Option String) : Option String :=
  match readResult with
  | none => none
  | some content =>
      match findCreatedAt content.toList with
      | some cap => some (String.mk (jsTrim cap))
      | none => none

/-- The `existingCreatedAt` computation of the sync loop (source lines
592–595): read the prior creation timestamp only when not forcing and an
artifact exists. -/
def syncCreatedAtSource (force artifactExists : Bool) (readResult : Option String) :
    Option String :=
  if !force && artifactExists then getExistingCreatedAt readResult else none

/-- The per-day outcome of the sync loop. -/
inductive SyncAction where
  | skipComplete
  | skipEmpty
  | create
  | update
deriving DecidableEq

/-- `String.prototype.includes`. -/
def strContains (s pat : String) : Bool :=
  (List.range (s.length + 1)).any
    (fun i => (s.toList.drop i).take pat.length == pat.toList)

/-- `card.title?.includes(pat)` with the `undefined` short-circuit. -/
def titleHas (c : Card) (pat : String) : Bool :=
  match c.title with
  | some t => strContains t pat
  | none => false

/-- The failed-processing-card test of the sync loop (source lines
571–577). -/
def isFailedCard (c : Card) : Bool :=
  c.category == some "System" &&
    (titleHas c "Processing failed" || titleHas c "Error" || c.subcategory == some "Error")

/-- The `timelineCards` filter of the sync loop. -/
def qualifyingCards (cards : List Card) : List Card :=
  cards.filter (fun c => !isFailedCard c)

/-- The decision control flow of one iteration of the sync loop
(source lines 552–616): skip-complete check before any data is fetched,
then the empty check on the filtered cards and the journal row, then
update versus create on artifact existence. -/
def processDayAction (force artifactExists : Bool) (day now : Int)
    (allCards : List Card) (journal : Option Journal) : SyncAction :=
  if !force && artifactExists && isDayComplete day now then .skipComplete
  else if (qualifyingCards allCards).length == 0 && journal.isNone then .skipEmpty
  else if artifactExists then .update
  else .create

/-- Follows the spec's §4.3 decision table word for word (evaluated in
order, first match wins); to be compared with the source-derived
`processDayAction`. -/
def specDecisionTable (forceRequested artifactExists dayComplete hasAnyData : Bool) :
    SyncAction :=
  if !forceRequested && artifactExists && dayComplete then .skipComplete
  else if !hasAnyData then .skipEmpty
  else if artifactExists then .update
  else .create

/-- The flattened (identifier, duration) contribution stream of the
aggregation, in input order: one event per present-and-non-empty
application slot of each record, carrying that record's duration. -/
def appEvents (cards : List Card) : List (String × Int) :=
  cards.flatMap (fun c =>
    (slotsOf c).map (fun a => (a, calculateDuration c.start_ts c.end_ts)))

/-- Session count an application should end up with: one per qualifying
slot naming it. -/
def specSessions (app : String) (cards : List Card) : Nat :=
  (appEvents cards).countP (fun e => e.1 == app)

/-- Total minutes an application should end up with: the sum of the
durations of the records naming it, once per naming slot. -/
def specMinutes (app : String) (cards : List Card) : Int :=
  (((appEvents cards).filter (fun e => e.1 == app)).map (fun e => e.2)).sum

/-! ## Arithmetic helpers -/

theorem ediv_add_mul_day (a b : Int) : (a + b * 86400) / 86400 = a / 86400 + b :=
  Int.add_mul_ediv_right a b (by norm_num)

theorem fourAMOf_ediv (t : Int) : fourAMOf t / 86400 = t / 86400 := by
  unfold fourAMOf
  have h : t / 86400 * 86400 + 4 * 3600 = 4 * 3600 + (t / 86400) * 86400 := by ring
  rw [h, ediv_add_mul_day]
  norm_num

theorem fourAMOf_sub_day_ediv (t : Int) : (fourAMOf t - 86400) / 86400 = t / 86400 - 1 := by
  unfold fourAMOf
  have h : t / 86400 * 86400 + 4 * 3600 - 86400 = 4 * 3600 + (t / 86400 - 1) * 86400 := by ring
  rw [h, ediv_add_mul_day]
  norm_num

theorem calculateDuration_eq_ediv (s e : Int) : calculateDuration s e = (e - s + 30) / 60 := by
  unfold calculateDuration jsRound
  have h1 : ((e : ℚ) - (s : ℚ)) / 60 + 1 / 2 = ((2 * (e - s + 30) : ℤ) : ℚ) / ((120 : ℕ) : ℚ) := by
    push_cast
    ring
  rw [h1, Rat.floor_intCast_div_natCast]
  have h2 : ((120 : ℕ) : ℤ) = 2 * 60 := by norm_num
  rw [h2, Int.mul_ediv_mul_of_pos _ _ (by norm_num : (0 : ℤ) < 2)]

theorem foldl_add_map (f : Card → Int) :
    ∀ (l : List Card) (init : Int),
      l.foldl (fun t c => t + f c) init = init + (l.map f).sum
  | [], init => by simp
  | c :: l, init => by
      simp only [List.foldl_cons, List.map_cons, List.sum_cons]
      rw [foldl_add_map f l (init + f c)]
      ring

theorem totalMinutes_eq_sum (cards : List Card) :
    calculateTotalMinutes cards =
      (cards.map (fun c => calculateDuration c.start_ts c.end_ts)).sum := by
  unfold calculateTotalMinutes
  rw [foldl_add_map _ cards 0, zero_add]

/-! ## Claims -/

/-- C2: for every input instant, `getDayInfoFor4AMBoundary` maps an instant
strictly before its own calendar date's 4 AM boundary to the previous
calendar date, with `dayStart` the boundary one calendar day earlier and
`dayEnd` the same-day boundary; any other instant — including one exactly
at the boundary — maps to the current calendar date, with `dayStart`
today's boundary and `dayEnd` tomorrow's. -/
theorem c2_resolveDay_boundary (t : Int) :
    (t < fourAMOf t →
      getDayInfoFor4AMBoundary t =
        ⟨t / 86400 - 1, (t / 86400 - 1) * 86400 + 4 * 3600, t / 86400 * 86400 + 4 * 3600⟩)
    ∧ (fourAMOf t ≤ t →
      getDayInfoFor4AMBoundary t =
        ⟨t / 86400, t / 86400 * 86400 + 4 * 3600, (t / 86400 + 1) * 86400 + 4 * 3600⟩) := by
  constructor
  · intro h
    unfold getDayInfoFor4AMBoundary
    rw [if_pos h, fourAMOf_sub_day_ediv]
    have h2 : fourAMOf t - 86400 = (t / 86400 - 1) * 86400 + 4 * 3600 := by
      unfold fourAMOf
      ring
    have h3 : fourAMOf t = t / 86400 * 86400 + 4 * 3600 := rfl
    rw [h2, h3]
  · intro h
    unfold getDayInfoFor4AMBoundary
    rw [if_neg (not_lt.mpr h), fourAMOf_ediv]
    have h2 : fourAMOf t + 86400 = (t / 86400 + 1) * 86400 + 4 * 3600 := by
      unfold fourAMOf
      ring
    have h3 : fourAMOf t = t / 86400 * 86400 + 4 * 3600 := rfl
    rw [h2, h3]

/-- Witness for C2: 2:00 AM of day 0 resolves to day −1 with the previous
boundary window, and exactly 4:00 AM of day 0 resolves to day 0. -/
theorem c2_resolveDay_boundary_witness :
    ((7200 : Int) < fourAMOf 7200 ∧
      getDayInfoFor4AMBoundary 7200 =
        ⟨(7200 : Int) / 86400 - 1, ((7200 : Int) / 86400 - 1) * 86400 + 4 * 3600,
          (7200 : Int) / 86400 * 86400 + 4 * 3600⟩)
    ∧ (fourAMOf 14400 ≤ (14400 : Int) ∧
      getDayInfoFor4AMBoundary 14400 =
        ⟨(14400 : Int) / 86400, (14400 : Int) / 86400 * 86400 + 4 * 3600,
          ((14400 : Int) / 86400 + 1) * 86400 + 4 * 3600⟩) :=
  ⟨⟨by decide, (c2_resolveDay_boundary 7200).1 (by decide)⟩,
   ⟨by decide, (c2_resolveDay_boundary 14400).2 (by decide)⟩⟩

/-- C1: for every processed day, the sync loop's decision equals the
spec's ordered decision table (first match wins) applied to the force
flag, artifact existence, day completeness, and the presence of any
qualifying activity record or journal record. -/
theorem c1_sync_decision_follows_spec_table (force artifactExists : Bool)
    (day now : Int) (allCards : List Card) (journal : Option Journal) :
    processDayAction force artifactExists day now allCards journal =
      specDecisionTable force artifactExists (isDayComplete day now)
        (!(qualifyingCards allCards).isEmpty || journal.isSome) := by
  unfold processDayAction specDecisionTable
  cases force <;> cases artifactExists <;> cases hc : isDayComplete day now <;>
    cases journal <;> cases hq : qualifyingCards allCards <;>
      simp [hq]

/-- C5: `calculateTotalMinutes` is the sum over the records of the
per-record rounded minute counts; each per-record count is the half-up
rounding of the exact quotient `(end − start) / 60` (it is within
`[q − 1/2, q + 1/2)` of the exact quotient `q`, so ties round up), and a
record spanning 0 s to 90 s contributes exactly 2 minutes. -/
theorem c5_total_duration_per_record_rounding :
    (∀ cards : List Card,
      calculateTotalMinutes cards =
        (cards.map (fun c => calculateDuration c.start_ts c.end_ts)).sum)
    ∧ (∀ startTs endTs : Int,
      (calculateDuration startTs endTs : ℚ) - 1 / 2 ≤ ((endTs : ℚ) - (startTs : ℚ)) / 60
      ∧ ((endTs : ℚ) - (startTs : ℚ)) / 60 < (calculateDuration startTs endTs : ℚ) + 1 / 2)
    ∧ calculateDuration 0 90 = 2 := by
  refine ⟨totalMinutes_eq_sum, fun s e => ?_, by rw [calculateDuration_eq_ediv]; decide⟩
  have hle : (⌊((e : ℚ) - (s : ℚ)) / 60 + 1 / 2⌋ : ℚ) ≤ ((e : ℚ) - (s : ℚ)) / 60 + 1 / 2 :=
    Int.floor_le _
  have hlt : ((e : ℚ) - (s : ℚ)) / 60 + 1 / 2 < (⌊((e : ℚ) - (s : ℚ)) / 60 + 1 / 2⌋ : ℚ) + 1 :=
    Int.lt_floor_add_one _
  unfold calculateDuration jsRound
  constructor
  · linarith
  · linarith

/-- C6: `calculateTotalMinutes` is invariant under any permutation of the
input record sequence. -/
theorem c6_total_duration_perm_invariant (l lp : List Card) (h : l.Perm lp) :
    calculateTotalMinutes l = calculateTotalMinutes lp := by
  rw [totalMinutes_eq_sum, totalMinutes_eq_sum]
  exact (h.map _).sum_eq

/-- Witness for C6: swapping two concrete records of different durations
leaves the total unchanged. -/
theorem c6_total_duration_perm_invariant_witness :
    calculateTotalMinutes
        [⟨"9:00", "9:30", 0, 1800, none, none, none, .absent⟩,
         ⟨"9:30", "10:15", 1800, 4500, none, none, none, .absent⟩] =
      calculateTotalMinutes
        [⟨"9:30", "10:15", 1800, 4500, none, none, none, .absent⟩,
         ⟨"9:00", "9:30", 0, 1800, none, none, none, .absent⟩] := by
  exact c6_total_duration_perm_invariant _ _ (List.Perm.swap _ _ [])

/-! ## Day-range lemmas (C3) -/

theorem fourAMOf_sub_day (t : Int) : fourAMOf (t - 86400) = fourAMOf t - 86400 := by
  unfold fourAMOf
  have h : t - 86400 = t + (-1) * 86400 := by ring
  rw [h, ediv_add_mul_day]
  ring

theorem dayString_eq (t : Int) :
    (getDayInfoFor4AMBoundary t).dayString =
      if t < fourAMOf t then t / 86400 - 1 else t / 86400 := by
  unfold getDayInfoFor4AMBoundary
  split
  · exact fourAMOf_sub_day_ediv t
  · exact fourAMOf_ediv t

theorem dayString_sub_day (t : Int) :
    (getDayInfoFor4AMBoundary (t - 86400)).dayString =
      (getDayInfoFor4AMBoundary t).dayString - 1 := by
  rw [dayString_eq, dayString_eq, fourAMOf_sub_day]
  have hd : (t - 86400) / 86400 = t / 86400 - 1 := by
    have h : t - 86400 = t + (-1) * 86400 := by ring
    rw [h, ediv_add_mul_day]
    ring
  by_cases hlt : t < fourAMOf t
  · rw [if_pos (by omega), if_pos hlt, hd]
  · rw [if_neg (by omega), if_neg hlt, hd]

theorem dayString_sub_mul (t : Int) : ∀ i : Nat,
    (getDayInfoFor4AMBoundary (t - (i : Int) * 86400)).dayString =
      (getDayInfoFor4AMBoundary t).dayString - i
  | 0 => by simp
  | (i + 1) => by
      have h : t - ((i + 1 : Nat) : Int) * 86400 = (t - (i : Int) * 86400) - 86400 := by
        push_cast
        ring
      rw [h, dayString_sub_day, dayString_sub_mul t i]
      push_cast
      ring

theorem foldl_push_nodup {α : Type _} [DecidableEq α] :
    ∀ (l acc : List α), (∀ x ∈ l, x ∉ acc) → l.Nodup →
      l.foldl (fun a x => if x ∈ a then a else a ++ [x]) acc = acc ++ l
  | [], acc, _, _ => by simp
  | a :: l, acc, hdisj, hnd => by
      simp only [List.foldl_cons]
      rw [if_neg (hdisj a (by simp))]
      rw [foldl_push_nodup l (acc ++ [a]) ?_ (List.Nodup.of_cons hnd)]
      · simp
      · intro x hx
        simp only [List.mem_append, List.mem_singleton]
        rintro (h | h)
        · exact hdisj x (by simp [hx]) h
        · exact (List.nodup_cons.mp hnd).1 (h ▸ hx)

theorem firstSeen_of_nodup {α : Type _} [DecidableEq α] (l : List α) (h : l.Nodup) :
    firstSeen l = l := by
  unfold firstSeen
  simpa using foldl_push_nodup l [] (by simp) h

theorem foldl_push_comp {α β : Type _} [DecidableEq β] (g : α → β) :
    ∀ (l : List α) (acc : List β),
      l.foldl (fun a x => (fun d => if d ∈ a then a else a ++ [d]) (g x)) acc =
        (l.map g).foldl (fun a d => if d ∈ a then a else a ++ [d]) acc
  | [], _ => rfl
  | x :: l, acc => by
      simp only [List.foldl_cons, List.map_cons]
      exact foldl_push_comp g l _

/-- C3: for every positive lookback count, `calculateDateRange` is the
first-seen-order deduplication of `resolveDay` applied at the reference
instant minus `i` whole days for `i = 0 .. count − 1`; it has at most
`count` entries, no duplicates, and is ordered newest first (each entry
strictly greater, i.e. more recent, than every later one). -/
theorem c3_listDays_dedup_ordered (days : Nat) (now : Int) (hpos : 0 < days) :
    calculateDateRange days now =
      firstSeen ((List.range days).map
        (fun (i : Nat) => (getDayInfoFor4AMBoundary (now - (i : Int) * 86400)).dayString))
    ∧ (calculateDateRange days now).length ≤ days
    ∧ (calculateDateRange days now).Nodup
    ∧ (calculateDateRange days now).Pairwise (fun a b => b < a) := by
  have hml : ∀ i ∈ List.range days,
      (getDayInfoFor4AMBoundary (now - ((i : Nat) : Int) * 86400)).dayString =
        (getDayInfoFor4AMBoundary now).dayString - ((i : Nat) : Int) :=
    fun i _ => dayString_sub_mul now i
  have hpw : ((List.range days).map
      (fun (i : Nat) => (getDayInfoFor4AMBoundary (now - (i : Int) * 86400)).dayString)).Pairwise
        (fun a b => b < a) := by
    rw [List.map_congr_left hml]
    refine List.Pairwise.map _ ?_ (List.pairwise_lt_range days)
    intro i j hij
    have : (i : Int) < (j : Int) := by exact_mod_cast hij
    omega
  have hnd : ((List.range days).map
      (fun (i : Nat) => (getDayInfoFor4AMBoundary (now - (i : Int) * 86400)).dayString)).Nodup :=
    hpw.imp (fun h => (ne_of_lt h).symm)
  have hcdr : calculateDateRange days now =
      (List.range days).map
        (fun (i : Nat) => (getDayInfoFor4AMBoundary (now - (i : Int) * 86400)).dayString) := by
    unfold calculateDateRange
    rw [foldl_push_comp (fun (i : Nat) =>
      (getDayInfoFor4AMBoundary (now - (i : Int) * 86400)).dayString) (List.range days) []]
    show firstSeen (firstSeen _) = _
    rw [firstSeen_of_nodup _ hnd, firstSeen_of_nodup _ hnd]
  refine ⟨?_, ?_, ?_, ?_⟩
  · rw [hcdr, firstSeen_of_nodup _ hnd]
  · rw [hcdr]
    simp
  · rw [hcdr]
    exact hnd
  · rw [hcdr]
    exact hpw

/-- Witness for C3 at a lookback of 3 days from 50000 s (day 0, 09:53). -/
theorem c3_listDays_dedup_ordered_witness :
    0 < 3
    ∧ (calculateDateRange 3 50000 =
        firstSeen ((List.range 3).map
          (fun (i : Nat) => (getDayInfoFor4AMBoundary (50000 - (i : Int) * 86400)).dayString))
      ∧ (calculateDateRange 3 50000).length ≤ 3
      ∧ (calculateDateRange 3 50000).Nodup
      ∧ (calculateDateRange 3 50000).Pairwise (fun a b => b < a)) :=
  ⟨by decide, c3_listDays_dedup_ordered 3 50000 (by decide)⟩

/-! ## Timestamp preservation (C4, C9) -/

/-- C4: regenerating an existing, incomplete day's artifact without the
force flag writes the existing artifact's recorded creation timestamp (as
extracted by `getExistingCreatedAt`) into the new frontmatter; with the
force flag the written creation timestamp is always the current instant. -/
theorem c4_timestamp_preservation (day now : Int) (nowIso : String)
    (cards : List Card) (j : Option Journal) (content ts : String) :
    (processDayAction false true day now cards j = .update →
      getExistingCreatedAt (some content) = some ts → ts ≠ "" →
      (generateFrontmatter day cards j
        (syncCreatedAtSource false true (some content)) nowIso).created_at = ts)
    ∧ (∀ readResult : Option String,
      (generateFrontmatter day cards j
        (syncCreatedAtSource true true readResult) nowIso).created_at = nowIso) := by
  constructor
  · intro _ hext hne
    have hsrc : syncCreatedAtSource false true (some content) = some ts := by
      unfold syncCreatedAtSource
      simpa using hext
    simp [generateFrontmatter, hsrc, hne]
  · intro readResult
    have hsrc : syncCreatedAtSource true true readResult = none := rfl
    simp [generateFrontmatter, hsrc]

/-- Witness for C4: an incomplete far-future day with a journal row, an
artifact whose frontmatter records a creation timestamp, no force flag. -/
theorem c4_timestamp_preservation_witness :
    (processDayAction false true 20000 0 [] (some ⟨none⟩) = .update
      ∧ getExistingCreatedAt (some "created_at: 2024-01-02T03:04:05.000Z") =
          some "2024-01-02T03:04:05.000Z"
      ∧ "2024-01-02T03:04:05.000Z" ≠ ""
      ∧ (generateFrontmatter 20000 [] (some ⟨none⟩)
          (syncCreatedAtSource false true (some "created_at: 2024-01-02T03:04:05.000Z"))
          "2025-01-01T00:00:00.000Z").created_at = "2024-01-02T03:04:05.000Z")
    ∧ (generateFrontmatter 20000 [] (some ⟨none⟩)
        (syncCreatedAtSource true true (some "created_at: 2024-01-02T03:04:05.000Z"))
        "2025-01-01T00:00:00.000Z").created_at = "2025-01-01T00:00:00.000Z" :=
  ⟨⟨by decide, by decide, by decide,
    (c4_timestamp_preservation 20000 0 "2025-01-01T00:00:00.000Z" [] (some ⟨none⟩)
      "created_at: 2024-01-02T03:04:05.000Z" "2024-01-02T03:04:05.000Z").1
      (by decide) (by decide) (by decide)⟩,
   (c4_timestamp_preservation 20000 0 "2025-01-01T00:00:00.000Z" [] (some ⟨none⟩)
      "created_at: 2024-01-02T03:04:05.000Z" "2024-01-02T03:04:05.000Z").2
      (some "created_at: 2024-01-02T03:04:05.000Z")⟩

/-- C9: `getExistingCreatedAt` silently yields `none` when the file read
fails or when the content has no match for the extraction pattern, and in
that case regenerating without force writes the current instant — so
timestamp preservation holds only when the extraction succeeds. -/
theorem c9_preservation_needs_successful_extraction (day : Int)
    (cards : List Card) (j : Option Journal) (nowIso : String) :
    getExistingCreatedAt none = none
    ∧ (∀ content : String, findCreatedAt content.toList = none →
        getExistingCreatedAt (some content) = none)
    ∧ (∀ readResult : Option String, getExistingCreatedAt readResult = none →
        (generateFrontmatter day cards j
          (syncCreatedAtSource false true readResult) nowIso).created_at = nowIso) := by
  refine ⟨rfl, ?_, ?_⟩
  · intro content h
    simp only [getExistingCreatedAt, h]
  · intro readResult h
    have hsrc : syncCreatedAtSource false true readResult = none := by
      unfold syncCreatedAtSource
      simpa using h
    simp [generateFrontmatter, hsrc]

/-- Witness for C9: an artifact body with no `created_at:` line, and an
unreadable artifact, both make the update path fall back to the current
instant without the force flag. -/
theorem c9_preservation_needs_successful_extraction_witness :
    (findCreatedAt ("# Dayflow notes, no frontmatter").toList = none
      ∧ getExistingCreatedAt (some "# Dayflow notes, no frontmatter") = none)
    ∧ getExistingCreatedAt none = none
    ∧ (generateFrontmatter 0 [] none
        (syncCreatedAtSource false true (some "# Dayflow notes, no frontmatter"))
        "2025-01-01T00:00:00.000Z").created_at = "2025-01-01T00:00:00.000Z" :=
  ⟨⟨by decide,
    (c9_preservation_needs_successful_extraction 0 [] none "2025-01-01T00:00:00.000Z").2.1
      _ (by decide)⟩,
   (c9_preservation_needs_successful_extraction 0 [] none "2025-01-01T00:00:00.000Z").1,
   (c9_preservation_needs_successful_extraction 0 [] none "2025-01-01T00:00:00.000Z").2.2
      (some "# Dayflow notes, no frontmatter") (by decide)⟩

/-! ## Metadata failure recovery (C8) -/

/-- C8: absent metadata parses to the empty contribution without a
warning; a metadata payload on which parsing throws produces the same
empty contribution plus a warning-level diagnostic, and the aggregations
and the per-day sync decision are exactly what they would be had that
record's metadata been absent — never an abort or a skipped day. -/
theorem c8_metadata_parse_failure_recovery :
    parseMetadata .absent = (⟨[], .obj []⟩, false)
    ∧ parseMetadata .malformed = (⟨[], .obj []⟩, true)
    ∧ (∀ (c : Card) (pre post : List Card),
        aggregateAppUsage (pre ++ { c with metadata := .malformed } :: post) =
          aggregateAppUsage (pre ++ { c with metadata := .absent } :: post)
        ∧ extractAllDistractions (pre ++ { c with metadata := .malformed } :: post) =
            extractAllDistractions (pre ++ { c with metadata := .absent } :: post)
        ∧ (∀ (force artifactExists : Bool) (day now : Int) (j : Option Journal),
            processDayAction force artifactExists day now
                (pre ++ { c with metadata := .malformed } :: post) j =
              processDayAction force artifactExists day now
                (pre ++ { c with metadata := .absent } :: post) j)) := by
  refine ⟨rfl, rfl, fun c pre post => ⟨?_, ?_, ?_⟩⟩
  · unfold aggregateAppUsage appStatsOf
    simp only [List.foldl_append, List.foldl_cons]
    rw [show slotsOf { c with metadata := .malformed } = [] from rfl,
      show slotsOf { c with metadata := .absent } = [] from rfl]
  · unfold extractAllDistractions
    rw [List.flatMap_append, List.flatMap_append]
    simp only [List.flatMap_cons]
    rfl
  · intro force artifactExists day now j
    have hlen : (qualifyingCards (pre ++ { c with metadata := .malformed } :: post)).length =
        (qualifyingCards (pre ++ { c with metadata := .absent } :: post)).length := by
      unfold qualifyingCards
      rw [List.filter_append, List.filter_append]
      simp only [List.filter_cons]
      rw [show isFailedCard { c with metadata := .malformed } = isFailedCard c from rfl,
        show isFailedCard { c with metadata := .absent } = isFailedCard c from rfl]
      split <;> simp
    unfold processDayAction
    rw [hlen]

/-! ## Duplicate application slots (C10) -/

/-- C10: a single record naming the same application in both the primary
and the secondary slot yields, on its own, two sessions for that
application and twice the record's duration as its total minutes. -/
theorem c10_same_app_in_both_slots (c : Card) (a : String)
    (h : slotsOf c = [a, a]) :
    aggregateAppUsage [c] = [⟨a, 2, 2 * calculateDuration c.start_ts c.end_ts⟩] := by
  unfold aggregateAppUsage appStatsOf
  simp only [List.foldl_cons, List.foldl_nil]
  rw [h]
  simp only [List.foldl_cons, List.foldl_nil, bump, if_pos]
  simp only [sortDesc, insertDesc]
  norm_num [two_mul]

/-- Witness for C10: one 60-minute record whose metadata names "A" in both
application slots. -/
theorem c10_same_app_in_both_slots_witness :
    slotsOf ⟨"s", "e", 0, 3600, none, none, none,
        .value (.obj [("appSites",
          .obj [("primary", .str "A"), ("secondary", .str "A")])])⟩ = ["A", "A"]
    ∧ aggregateAppUsage [⟨"s", "e", 0, 3600, none, none, none,
        .value (.obj [("appSites",
          .obj [("primary", .str "A"), ("secondary", .str "A")])])⟩] =
      [⟨"A", 2, 2 * calculateDuration 0 3600⟩] :=
  ⟨by decide,
   c10_same_app_in_both_slots _ "A" (by decide)⟩

/-! ## Application-usage aggregation (C7) -/

/-- Folding the flattened (identifier, duration) event stream into the
`appStats` object. -/
def statsFold (evs : List (String × Int)) (m : List (String × AppStats)) :
    List (String × AppStats) :=
  evs.foldl (fun acc e => bump e.1 e.2 acc) m

theorem appStatsOf_eq_statsFold :
    ∀ (cards : List Card) (m : List (String × AppStats)),
      cards.foldl (fun m2 c =>
        (slotsOf c).foldl
          (fun m3 app => bump app (calculateDuration c.start_ts c.end_ts) m3) m2) m =
        statsFold (appEvents cards) m
  | [], m => rfl
  | c :: cards, m => by
      simp only [List.foldl_cons, appEvents, List.flatMap_cons]
      rw [appStatsOf_eq_statsFold cards]
      unfold statsFold
      rw [List.foldl_append, List.foldl_map]
      rfl

theorem appStatsOf_eq (cards : List Card) :
    appStatsOf cards = statsFold (appEvents cards) [] :=
  appStatsOf_eq_statsFold cards []

theorem lookup_bump (x k : String) (d : Int) :
    ∀ m : List (String × AppStats),
      List.lookup x (bump k d m) =
        if x = k then
          (match List.lookup k m with
            | none => some ⟨1, d⟩
            | some s => some ⟨s.sessions + 1, s.totalMinutes + d⟩)
        else List.lookup x m
  | [] => by
      by_cases hxk : x = k
      · subst hxk
        have hb : (x == x) = true := by simp
        simp [bump, List.lookup, hb]
      · have hb : (x == k) = false := by simp [hxk]
        simp [bump, List.lookup, hb, hxk]
  | (k2, s) :: rest => by
      by_cases hk2 : k2 = k
      · subst hk2
        by_cases hxk : x = k2
        · subst hxk
          have hb : (x == x) = true := by simp
          simp [bump, List.lookup, hb]
        · have hb : (x == k2) = false := by simp [hxk]
          simp [bump, List.lookup, hb, hxk]
      · by_cases hxk : x = k2
        · subst hxk
          have hb : (x == x) = true := by simp
          simp [bump, hk2, List.lookup, hb, if_neg hk2]
        · have hb : (x == k2) = false := by simp [hxk]
          have hkk2 : ¬k = k2 := fun h => hk2 h.symm
          have hbk : (k == k2) = false := by simp [hkk2]
          simp [bump, hk2, List.lookup, hb, hbk, lookup_bump x k d rest]

theorem keys_bump (k : String) (d : Int) :
    ∀ m : List (String × AppStats),
      (bump k d m).map Prod.fst =
        if k ∈ m.map Prod.fst then m.map Prod.fst else m.map Prod.fst ++ [k]
  | [] => by simp [bump]
  | (k2, s) :: rest => by
      by_cases hk2 : k2 = k
      · subst hk2
        simp [bump]
      · have h2 : ¬(k = k2) := fun h => hk2 h.symm
        simp only [bump, if_neg hk2, List.map_cons, List.mem_cons, h2, false_or]
        rw [keys_bump k d rest]
        by_cases hmem : k ∈ rest.map Prod.fst <;> simp [hmem]

/-- Session count and summed duration contributed to `x` by an event
stream folded on top of a prior statistics object. -/
theorem lookup_statsFold (x : String) :
    ∀ (evs : List (String × Int)) (m : List (String × AppStats)),
      List.lookup x (statsFold evs m) =
        (match List.lookup x m with
          | some s =>
              some ⟨s.sessions + evs.countP (fun e => e.1 == x),
                s.totalMinutes + ((evs.filter (fun e => e.1 == x)).map (fun e => e.2)).sum⟩
          | none =>
              if evs.countP (fun e => e.1 == x) = 0 then none
              else some ⟨evs.countP (fun e => e.1 == x),
                ((evs.filter (fun e => e.1 == x)).map (fun e => e.2)).sum⟩)
  | [], m => by
      cases h : List.lookup x m <;> simp [statsFold, h]
  | (k, d) :: evs, m => by
      have hstep : statsFold ((k, d) :: evs) m = statsFold evs (bump k d m) := rfl
      rw [hstep, lookup_statsFold x evs (bump k d m), lookup_bump x k d m]
      by_cases hxk : x = k
      · subst hxk
        have hb : ((x, d).1 == x) = true := by simp
        cases h : List.lookup x m with
        | none =>
            simp only [if_pos rfl, h, List.countP_cons, List.filter_cons, hb,
              if_true, List.map_cons, List.sum_cons]
            rw [if_neg (by omega)]
            simp only [Option.some.injEq, AppStats.mk.injEq]
            exact ⟨by omega, trivial⟩
        | some s =>
            simp only [if_pos rfl, h, List.countP_cons, List.filter_cons, hb,
              if_true, List.map_cons, List.sum_cons]
            simp only [Option.some.injEq, AppStats.mk.injEq]
            exact ⟨by omega, by omega⟩
      · have hkx : ¬k = x := fun h => hxk (Eq.symm h)
        have hbk : ((k, d).1 == x) = false := by simp [hkx]
        have hcnt : List.countP (fun e => e.1 == x) ((k, d) :: evs) =
            List.countP (fun e => e.1 == x) evs := by
          simp [List.countP_cons, hbk]
        have hfilt : List.filter (fun e => e.1 == x) ((k, d) :: evs) =
            List.filter (fun e => e.1 == x) evs := by
          simp [List.filter_cons, hbk]
        rw [if_neg hxk, hcnt, hfilt]

theorem keys_statsFold :
    ∀ (evs : List (String × Int)) (m : List (String × AppStats)),
      (statsFold evs m).map Prod.fst =
        (evs.map Prod.fst).foldl
          (fun acc k => if k ∈ acc then acc else acc ++ [k]) (m.map Prod.fst)
  | [], m => rfl
  | (k, d) :: evs, m => by
      have hstep : statsFold ((k, d) :: evs) m = statsFold evs (bump k d m) := rfl
      rw [hstep, keys_statsFold evs (bump k d m)]
      simp only [List.map_cons, List.foldl_cons]
      rw [keys_bump]

theorem insertDesc_perm (x : String × AppStats) :
    ∀ l, (insertDesc x l).Perm (x :: l)
  | [] => List.Perm.refl _
  | y :: ys => by
      unfold insertDesc
      split
      · exact List.Perm.refl _
      · exact ((insertDesc_perm x ys).cons y).trans (List.Perm.swap x y ys)

theorem sortDesc_perm : ∀ l, (sortDesc l).Perm l
  | [] => List.Perm.refl _
  | x :: xs => (insertDesc_perm x (sortDesc xs)).trans ((sortDesc_perm xs).cons x)

theorem mem_insertDesc {z x : String × AppStats} {l : List (String × AppStats)} :
    z ∈ insertDesc x l ↔ z = x ∨ z ∈ l := by
  rw [(insertDesc_perm x l).mem_iff]
  simp

theorem insertDesc_sorted (x : String × AppStats) :
    ∀ l, l.Pairwise (fun a b => b.2.totalMinutes ≤ a.2.totalMinutes) →
      (insertDesc x l).Pairwise (fun a b => b.2.totalMinutes ≤ a.2.totalMinutes)
  | [], _ => by
      unfold insertDesc
      simp
  | y :: ys, h => by
      unfold insertDesc
      split
      case isTrue hyx =>
        refine List.Pairwise.cons ?_ h
        intro z hz
        rcases List.mem_cons.mp hz with rfl | hz2
        · exact hyx
        · exact le_trans (List.rel_of_pairwise_cons h hz2) hyx
      case isFalse hyx =>
        refine List.Pairwise.cons ?_ (insertDesc_sorted x ys (List.Pairwise.of_cons h))
        intro z hz
        rcases mem_insertDesc.mp hz with rfl | hz2
        · exact le_of_lt (not_le.mp hyx)
        · exact List.rel_of_pairwise_cons h hz2

theorem sortDesc_sorted :
    ∀ l, (sortDesc l).Pairwise (fun a b => b.2.totalMinutes ≤ a.2.totalMinutes)
  | [] => List.Pairwise.nil
  | x :: xs => insertDesc_sorted x (sortDesc xs) (sortDesc_sorted xs)

theorem filter_insertDesc (x : String × AppStats) (m : Int) :
    ∀ l, (insertDesc x l).filter (fun e => e.2.totalMinutes == m) =
      if x.2.totalMinutes = m then
        x :: l.filter (fun e => e.2.totalMinutes == m)
      else l.filter (fun e => e.2.totalMinutes == m)
  | [] => by
      by_cases hx : x.2.totalMinutes = m
      · have hb : (x.2.totalMinutes == m) = true := by simp [hx]
        simp [insertDesc, List.filter_cons, hb, hx]
      · have hb : (x.2.totalMinutes == m) = false := by simp [hx]
        simp [insertDesc, List.filter_cons, hb, hx]
  | y :: ys => by
      unfold insertDesc
      split
      case isTrue hyx =>
        by_cases hx : x.2.totalMinutes = m
        · have hb : (x.2.totalMinutes == m) = true := by simp [hx]
          simp [List.filter_cons, hb, hx]
        · have hb : (x.2.totalMinutes == m) = false := by simp [hx]
          simp [List.filter_cons, hb, hx]
      case isFalse hyx =>
        by_cases hx : x.2.totalMinutes = m
        · have hy : ¬y.2.totalMinutes = m := by
            intro hy
            exact hyx (le_of_eq (hy.trans hx.symm))
          have hby : (y.2.totalMinutes == m) = false := by simp [hy]
          simp [List.filter_cons, hby, filter_insertDesc x m ys, hx]
        · simp [List.filter_cons, filter_insertDesc x m ys, hx]

theorem filter_sortDesc (m : Int) :
    ∀ l, (sortDesc l).filter (fun e => e.2.totalMinutes == m) =
      l.filter (fun e => e.2.totalMinutes == m)
  | [] => rfl
  | x :: xs => by
      show (insertDesc x (sortDesc xs)).filter _ = _
      rw [filter_insertDesc, filter_sortDesc m xs, List.filter_cons]
      by_cases hx : x.2.totalMinutes = m
      · have hb : (x.2.totalMinutes == m) = true := by simp [hx]
        simp [hx, hb]
      · have hb : (x.2.totalMinutes == m) = false := by simp [hx]
        simp [hx, hb]

/-- C7: `aggregateAppUsage` reads up to two application identifiers per
record and, for each present non-empty one, adds one session and the
record's duration (conjunct 4, via `specSessions` / `specMinutes`); the
result is ordered by descending total minutes (conjunct 1), its entries
are exactly the accumulated statistics (conjunct 5), ties keep the
statistics order (conjunct 2), which is first-appearance order of the
applications in the input (conjunct 3); two records with primary
application "A" of 30 and 45 minutes yield sessions 2 and total 75
(conjunct 6). -/
theorem c7_app_usage_aggregation (cards : List Card) :
    (aggregateAppUsage cards).Pairwise (fun a b => b.totalMinutes ≤ a.totalMinutes)
    ∧ (∀ m : Int,
        ((aggregateAppUsage cards).filter (fun e => e.totalMinutes == m)).map
            (fun e => e.app) =
          ((appStatsOf cards).filter (fun p => p.2.totalMinutes == m)).map
            (fun p => p.1))
    ∧ (appStatsOf cards).map Prod.fst = firstSeen ((appEvents cards).map Prod.fst)
    ∧ (∀ app : String,
        List.lookup app (appStatsOf cards) =
          if specSessions app cards = 0 then none
          else some ⟨specSessions app cards, specMinutes app cards⟩)
    ∧ (aggregateAppUsage cards).Perm
        ((appStatsOf cards).map
          (fun p => (⟨p.1, p.2.sessions, p.2.totalMinutes⟩ : AppUsage)))
    ∧ aggregateAppUsage
        [⟨"9:00", "9:30", 0, 1800, none, none, none,
          .value (.obj [("appSites", .obj [("primary", .str "A")])])⟩,
         ⟨"9:30", "10:15", 0, 2700, none, none, none,
          .value (.obj [("appSites", .obj [("primary", .str "A")])])⟩] =
      [⟨"A", 2, 75⟩] := by
  refine ⟨?_, ?_, ?_, ?_, ?_, ?_⟩
  · unfold aggregateAppUsage
    rw [List.pairwise_map]
    exact sortDesc_sorted (appStatsOf cards)
  · intro m
    unfold aggregateAppUsage
    rw [List.filter_map, List.map_map]
    have hcomp : ((fun e : AppUsage => e.totalMinutes == m) ∘
        (fun e : String × AppStats =>
          (⟨e.1, e.2.sessions, e.2.totalMinutes⟩ : AppUsage))) =
        (fun e : String × AppStats => e.2.totalMinutes == m) := rfl
    rw [hcomp, filter_sortDesc]
    rfl
  · rw [appStatsOf_eq, keys_statsFold]
    rfl
  · intro app
    rw [appStatsOf_eq, lookup_statsFold]
    rfl
  · unfold aggregateAppUsage
    exact (sortDesc_perm (appStatsOf cards)).map _
  · have h30 : calculateDuration 0 1800 = 30 := by
      rw [calculateDuration_eq_ediv]
      decide
    have h45 : calculateDuration 0 2700 = 45 := by
      rw [calculateDuration_eq_ediv]
      decide
    unfold aggregateAppUsage appStatsOf
    simp only [List.foldl_cons, List.foldl_nil]
    rw [show slotsOf ⟨"9:00", "9:30", 0, 1800, none, none, none,
      .value (.obj [("appSites", .obj [("primary", .str "A")])])⟩ = ["A"] from rfl]
    rw [show slotsOf ⟨"9:30", "10:15", 0, 2700, none, none, none,
      .value (.obj [("appSites", .obj [("primary", .str "A")])])⟩ = ["A"] from rfl]
    simp only [List.foldl_cons, List.foldl_nil, bump, h30, h45, if_pos]
    simp only [sortDesc, insertDesc]
    norm_num
